import Mathlib

/-!
Shallow embedding of the hv-network-visualizer core (src/component.rs and
src/node.rs), together with spec-modelled leaf entities (Terminal,
SwitchgearPosition, Measurement) whose source files are not in the repository
snapshot.  Rust's in-place mutation through `&self`/`RefCell` is modelled by
explicit state passing: each mutating operation returns the call's
`Result` outcome paired with the post-call state of the mutated entity.
`Rc` pointer identity (`Rc::ptr_eq`) is modelled by a numeric id carried in
the reference value.
-/

/-- The `ComponentType` enum of component.rs. -/
inductive ComponentType
  | CircuitBreaker
  | Disconnector
  | EarthingSwitch
  | VoltageTransformer
  | Transformer
deriving DecidableEq, Repr

/-- The string produced by the hand-written `impl fmt::Display for ComponentType`
(component.rs lines 25-37): the `typestr` chosen by the `match`. -/
def ComponentType.displayStr : ComponentType → String
  | .CircuitBreaker => "CircuitBreaker"
  | .Disconnector => "Disconnector"
  | .EarthingSwitch => "Earthing Switch"
  | .VoltageTransformer => "Voltage Transformer"
  | .Transformer => "Transformer"

/-- The string produced by the derived `Debug` formatting (`{:?}`) of
`ComponentType`: the bare variant identifier. -/
def ComponentType.debugStr : ComponentType → String
  | .CircuitBreaker => "CircuitBreaker"
  | .Disconnector => "Disconnector"
  | .EarthingSwitch => "EarthingSwitch"
  | .VoltageTransformer => "VoltageTransformer"
  | .Transformer => "Transformer"

/-- A shared reference `Rc<Node>` as seen by Component code: pointer identity
is the id, and the node's immutable name is readable through the pointer. -/
structure NodeRef where
  id : Nat
  name : String
deriving DecidableEq, Repr

/-- A shared reference `Rc<dyn Component>` as stored in a Node's registry:
pointer identity is the id, and the component's immutable name is readable
through the pointer. -/
structure CompRef where
  id : Nat
  name : String
deriving DecidableEq, Repr

/-- The distinct error outcomes of the library, one constructor per
`format!`/error site, carrying the data interpolated into the message. -/
inductive Err
  | notConnected
  | alreadyConnected
  | alreadyOpen
  | alreadyClosed
  | terminalIndexOutOfRange (compName : String) (ty : ComponentType) (index : Nat) (count : Nat)
  | duplicateNodeConnection (compName : String) (nodeName : String) (terminal : Nat)
  | notConnectedToNode (compName : String) (nodeName : String)
  | noPositionCapability (ty : ComponentType)
  | noMeasurementCapability (ty : ComponentType)
  | duplicateComponent (compName : String) (nodeName : String)
  | componentNotFound (compName : String) (nodeName : String)
deriving DecidableEq, Repr

/-- Modelled from the spec: `Terminal` (its source module is not in the
snapshot).  One attachment point holding an optional reference to a
connected Node. -/
structure Terminal where
  node : Option NodeRef
deriving DecidableEq, Repr

/-- Modelled from the spec: `Terminal::new` — a fresh terminal holds no
node reference. -/
def Terminal.new : Terminal := ⟨none⟩

/-- Modelled from the spec: `Terminal::get_node` returns the referenced
Node, or fails with `NotConnected` if none. -/
def Terminal.get_node (t : Terminal) : Except Err NodeRef :=
  match t.node with
  | some n => .ok n
  | none => .error .notConnected

/-- Modelled from the spec: `Terminal::connect(node)` fails with
`AlreadyConnected` if a node reference is already set (mutating nothing);
otherwise stores the reference. -/
def Terminal.connect (t : Terminal) (n : NodeRef) : Except Err Unit × Terminal :=
  match t.node with
  | some _ => (.error .alreadyConnected, t)
  | none => (.ok (), { node := some n })

/-- Modelled from the spec: `Terminal::disconnect()` fails with
`NotConnected` if no reference is set (mutating nothing); otherwise clears
it. -/
def Terminal.disconnect (t : Terminal) : Except Err Unit × Terminal :=
  match t.node with
  | some _ => (.ok (), { node := none })
  | none => (.error .notConnected, t)

/-- Modelled from the spec: the two-state `SwitchgearPosition` machine. -/
inductive SwitchState
  | Open
  | Closed
deriving DecidableEq, Repr

/-- Modelled from the spec: `SwitchgearPosition` holds one `SwitchState`. -/
structure SwitchgearPosition where
  state : SwitchState
deriving DecidableEq, Repr

/-- Modelled from the spec: `SwitchgearPosition::new` — initial state Open. -/
def SwitchgearPosition.new : SwitchgearPosition := ⟨.Open⟩

/-- Modelled from the spec: `SwitchgearPosition::open` — Closed→Open, fails
with `AlreadyOpen` (no side effect) if already Open. -/
def SwitchgearPosition.opn : SwitchgearPosition → Except Err Unit × SwitchgearPosition
  | ⟨.Open⟩ => (.error .alreadyOpen, ⟨.Open⟩)
  | ⟨.Closed⟩ => (.ok (), ⟨.Open⟩)

/-- Modelled from the spec: `SwitchgearPosition::close` — Open→Closed, fails
with `AlreadyClosed` (no side effect) if already Closed. -/
def SwitchgearPosition.cls : SwitchgearPosition → Except Err Unit × SwitchgearPosition
  | ⟨.Closed⟩ => (.error .alreadyClosed, ⟨.Closed⟩)
  | ⟨.Open⟩ => (.ok (), ⟨.Closed⟩)

/-- Modelled from the spec: `Measurement` stores the last written 64-bit
float value. -/
structure Measurement where
  value : Float

/-- Modelled from the spec: `Measurement::new` — initial value 0.0. -/
def Measurement.new : Measurement := ⟨0.0⟩

/-- Modelled from the spec: `Measurement::update(value)` stores the value
unconditionally and always succeeds. -/
def Measurement.update (_m : Measurement) (x : Float) : Measurement := ⟨x⟩

/-- A component: the variant tag, the constructor-assigned name, the
variant's fixed terminal array, and the capability sub-entities present on
the variant's struct (`position` for CircuitBreaker/Disconnector/
EarthingSwitch, `measurement` for VoltageTransformer), following the
per-variant structs of component.rs. -/
structure Component where
  ty : ComponentType
  name : String
  terminals : List Terminal
  position : Option SwitchgearPosition
  measurement : Option Measurement

/-- Number of terminals in each variant's fixed-size terminal array. -/
def ComponentType.terminalCount : ComponentType → Nat
  | .CircuitBreaker => 2
  | .Disconnector => 2
  | .EarthingSwitch => 1
  | .VoltageTransformer => 1
  | .Transformer => 3

/-- Whether the variant's struct carries a `SwitchgearPosition` field. -/
def ComponentType.hasPosition : ComponentType → Bool
  | .CircuitBreaker => true
  | .Disconnector => true
  | .EarthingSwitch => true
  | .VoltageTransformer => false
  | .Transformer => false

/-- Whether the variant's struct carries a `Measurement` field. -/
def ComponentType.hasMeasurement : ComponentType → Bool
  | .VoltageTransformer => true
  | _ => false

/-- The per-variant constructors (`CircuitBreaker::new`, ..., unified over
the variant tag): name from the argument, fresh terminals, fresh position/
measurement where the variant has the field. -/
def Component.new (ty : ComponentType) (name : String) : Component :=
  { ty := ty
    name := name
    terminals := List.replicate ty.terminalCount Terminal.new
    position := if ty.hasPosition then some SwitchgearPosition.new else none
    measurement := if ty.hasMeasurement then some Measurement.new else none }

/-- The per-variant `terminal(index)` accessor: `self.terminals.get(index)`,
with the out-of-range error naming the component, its type, the index and
`self.terminals.len()`. -/
def Component.terminal (c : Component) (i : Nat) : Except Err Terminal :=
  match c.terminals[i]? with
  | some t => .ok t
  | none => .error (.terminalIndexOutOfRange c.name c.ty i c.terminals.length)

/-- The scan loop of `Component::connect` (component.rs lines 60-84): walk
indices upward from `i`, skipping index `skip`, stopping at the end of the
terminal array; return the first index whose terminal's `get_node()` yields
a node with pointer identity `nid`.  Walking the terminal list element by
element is the loop's `self.terminal(i)`/break-on-`Err` indexing, since the
terminal array is dense. -/
def scanDup (ts : List Terminal) (i : Nat) (skip : Nat) (nid : Nat) : Option Nat :=
  match ts with
  | [] => none
  | t :: rest =>
    if i = skip then scanDup rest (i + 1) skip nid
    else
      match t.get_node with
      | .ok nr => if nr.id = nid then some i else scanDup rest (i + 1) skip nid
      | .error _ => scanDup rest (i + 1) skip nid

/-- `Component::connect(node, terminal_index)` (component.rs lines 59-88):
scan every other terminal for one already referencing `node` (failing with
the duplicate-connection error naming the conflicting index); then look up
`terminal(terminal_index)` (propagating its out-of-range error); then
delegate to `Terminal::connect`, storing the terminal's post-call state. -/
def Component.connect (c : Component) (n : NodeRef) (ti : Nat) : Except Err Unit × Component :=
  match scanDup c.terminals 0 ti n.id with
  | some i => (.error (.duplicateNodeConnection c.name n.name i), c)
  | none =>
    match c.terminal ti with
    | .error e => (.error e, c)
    | .ok t =>
      let (r, tNew) := t.connect n
      (r, { c with terminals := c.terminals.set ti tNew })

/-- The scan loop of `Component::disconnect` (component.rs lines 92-101):
walk the terminal array in ascending index order; at the first terminal
whose `get_node()` yields a node with pointer identity `nid`, delegate to
`Terminal::disconnect` and return its result together with the updated
terminal array; `none` when no terminal references the node. -/
def discScan (ts : List Terminal) (nid : Nat) : Option (Except Err Unit × List Terminal) :=
  match ts with
  | [] => none
  | t :: rest =>
    match t.get_node with
    | .ok nr =>
      if nr.id = nid then
        let (r, tNew) := t.disconnect
        some (r, tNew :: rest)
      else (discScan rest nid).map (fun p => (p.1, t :: p.2))
    | .error _ => (discScan rest nid).map (fun p => (p.1, t :: p.2))

/-- `Component::disconnect(node)` (component.rs lines 91-107): the scan
loop, or the not-connected-to-node error when the loop runs off the end. -/
def Component.disconnect (c : Component) (n : NodeRef) : Except Err Unit × Component :=
  match discScan c.terminals n.id with
  | some (r, ts) => (r, { c with terminals := ts })
  | none => (.error (.notConnectedToNode c.name n.name), c)

/-- `Component::position` default + overrides: the variant's position
sub-entity, or the no-position-capability error naming the type. -/
def Component.positionRes (c : Component) : Except Err SwitchgearPosition :=
  match c.position with
  | some p => .ok p
  | none => .error (.noPositionCapability c.ty)

/-- `Component::open` (component.rs lines 118-122): `self.position()?`,
then the sub-entity's `open`, writing back the sub-entity's post-call
state. -/
def Component.opn (c : Component) : Except Err Unit × Component :=
  match c.position with
  | none => (.error (.noPositionCapability c.ty), c)
  | some p =>
    let (r, pNew) := p.opn
    (r, { c with position := some pNew })

/-- `Component::close` (component.rs lines 125-129): `self.position()?`,
then the sub-entity's `close`, writing back the sub-entity's post-call
state. -/
def Component.cls (c : Component) : Except Err Unit × Component :=
  match c.position with
  | none => (.error (.noPositionCapability c.ty), c)
  | some p =>
    let (r, pNew) := p.cls
    (r, { c with position := some pNew })

/-- `Component::update` default + VoltageTransformer override: store into
the measurement sub-entity when present, else the no-measurement error
naming the type. -/
def Component.update (c : Component) (x : Float) : Except Err Unit × Component :=
  match c.measurement with
  | none => (.error (.noMeasurementCapability c.ty), c)
  | some m => (.ok (), { c with measurement := some (m.update x) })

/-- `Component::value` default + VoltageTransformer override: read the
measurement sub-entity when present, else the no-measurement error naming
the type. -/
def Component.value (c : Component) : Except Err Float :=
  match c.measurement with
  | none => .error (.noMeasurementCapability c.ty)
  | some m => .ok m.value

/-- `impl fmt::Display for dyn Component` (component.rs lines 148-152):
`write!(f, "Component {} of type {:?}", self.name(), self.r#type())` —
note the `{:?}` Debug formatting of the type. -/
def Component.display (c : Component) : String :=
  "Component " ++ c.name ++ " of type " ++ c.ty.debugStr

/-- A `Node` (node.rs): name plus the `children` registry of component
references. -/
structure Node where
  name : String
  children : List CompRef
deriving DecidableEq, Repr

/-- `Node::new`: sets the name, empty registry. -/
def Node.new (name : String) : Node := ⟨name, []⟩

/-- `Node::add_component` (node.rs lines 28-45): find a member with the
same pointer identity; if one exists fail with the duplicate-component
error, else push the reference. -/
def Node.add_component (nd : Node) (c : CompRef) : Except Err Unit × Node :=
  match nd.children.findIdx? (fun x => x.id = c.id) with
  | some _ => (.error (.duplicateComponent c.name nd.name), nd)
  | none => (.ok (), { nd with children := nd.children ++ [c] })

/-- `Node::remove_component` (node.rs lines 48-65): find a member with the
same pointer identity; if present remove it at its index, else fail with
the component-not-found error. -/
def Node.remove_component (nd : Node) (c : CompRef) : Except Err Unit × Node :=
  match nd.children.findIdx? (fun x => x.id = c.id) with
  | some i => (.ok (), { nd with children := nd.children.eraseIdx i })
  | none => (.error (.componentNotFound c.name nd.name), nd)

/-- `impl fmt::Display for Node` (node.rs lines 68-72): `"Node {}"`. -/
def Node.display (nd : Node) : String := "Node " ++ nd.name

/-- One call of the Component mutator surface, for stating properties of
arbitrary operation sequences. -/
inductive Op
  | connect (n : NodeRef) (ti : Nat)
  | disconnect (n : NodeRef)
  | opn
  | cls
  | update (x : Float)

/-- The component state after one call (the call's post-state, whether the
call succeeded or failed, as with in-place mutation). -/
def Component.applyOp (c : Component) : Op → Component
  | .connect n ti => (c.connect n ti).2
  | .disconnect n => (c.disconnect n).2
  | .opn => c.opn.2
  | .cls => c.cls.2
  | .update x => (c.update x).2

/-- The component state after a sequence of calls. -/
def Component.applyOps (c : Component) (ops : List Op) : Component :=
  ops.foldl Component.applyOp c

/-- Whether the terminal at index `k` references the node with pointer
identity `nid`. -/
def refsNode (ts : List Terminal) (k : Nat) (nid : Nat) : Bool :=
  match ts[k]? with
  | some t =>
    match t.node with
    | some nr => nr.id = nid
    | none => false
  | none => false

/-- No two distinct terminals of the component reference the same node by
identity. -/
def nodesDistinct (c : Component) : Prop :=
  ∀ i j : Nat, i ≠ j → ∀ ti tj : Terminal,
    c.terminals[i]? = some ti → c.terminals[j]? = some tj →
    ∀ ni nj : NodeRef, ti.node = some ni → tj.node = some nj → ni.id ≠ nj.id

/-! ### Helper lemmas -/

theorem refsNode_nil (k nid : Nat) : refsNode [] k nid = false := by
  simp [refsNode]

theorem refsNode_cons_succ (t : Terminal) (ts : List Terminal) (k nid : Nat) :
    refsNode (t :: ts) (k + 1) nid = refsNode ts k nid := by
  unfold refsNode
  rw [List.getElem?_cons_succ]

theorem refsNode_cons_zero (t : Terminal) (ts : List Terminal) (nid : Nat) :
    refsNode (t :: ts) 0 nid =
      match t.node with
      | some nr => decide (nr.id = nid)
      | none => false := by
  unfold refsNode
  rw [List.getElem?_cons_zero]

theorem refsNode_set_ne (ts : List Terminal) (i j : Nat) (x : Terminal) (nid : Nat)
    (h : i ≠ j) : refsNode (ts.set i x) j nid = refsNode ts j nid := by
  simp [refsNode, List.getElem?_set_ne h]

theorem refsNode_true_iff (ts : List Terminal) (k nid : Nat) :
    refsNode ts k nid = true ↔
      ∃ t nr, ts[k]? = some t ∧ t.node = some nr ∧ nr.id = nid := by
  unfold refsNode
  cases hts : ts[k]? with
  | none => simp
  | some t =>
    cases ht : t.node with
    | none => simp [ht]
    | some nr => simp [ht]

theorem refsNode_false_of (ts : List Terminal) (k nid : Nat)
    (h : ∀ t nr, ts[k]? = some t → t.node = some nr → nr.id ≠ nid) :
    refsNode ts k nid = false := by
  unfold refsNode
  cases hts : ts[k]? with
  | none => rfl
  | some t =>
    cases ht : t.node with
    | none => simp [ht]
    | some nr =>
      simp only [ht, decide_eq_false_iff_not]
      exact h t nr hts ht

theorem List.set_self_of_getElem? {α : Type _} (ts : List α) (i : Nat) (t : α)
    (h : ts[i]? = some t) : ts.set i t = ts := by
  induction ts generalizing i with
  | nil => simp at h
  | cons hd tl ih =>
    cases i with
    | zero => simp_all
    | succ n =>
      simp only [List.getElem?_cons_succ] at h
      simp [List.set_cons_succ, ih n h]

theorem scanDup_eq_none_iff (ts : List Terminal) (i skip nid : Nat) :
    scanDup ts i skip nid = none ↔ ∀ k, i + k ≠ skip → refsNode ts k nid = false := by
  induction ts generalizing i with
  | nil => simp [scanDup, refsNode_nil]
  | cons t rest ih =>
    unfold scanDup
    by_cases hi : i = skip
    · rw [if_pos hi, ih]
      constructor
      · intro H k hk
        cases k with
        | zero => exact absurd (by omega) hk
        | succ m =>
          rw [refsNode_cons_succ]
          exact H m (by omega)
      · intro H k hk
        rw [← refsNode_cons_succ t rest k nid]
        exact H (k + 1) (by omega)
    · simp only [if_neg hi]
      cases ht : t.node with
      | none =>
        simp only [Terminal.get_node, ht, ih]
        constructor
        · intro H k hk
          cases k with
          | zero => rw [refsNode_cons_zero, ht]
          | succ m => rw [refsNode_cons_succ]; exact H m (by omega)
        · intro H k hk
          rw [← refsNode_cons_succ t rest k nid]
          exact H (k + 1) (by omega)
      | some nr =>
        simp only [Terminal.get_node, ht]
        by_cases hid : nr.id = nid
        · simp only [if_pos hid]
          constructor
          · intro H; exact absurd H (by simp)
          · intro H
            have := H 0 (by omega)
            rw [refsNode_cons_zero, ht] at this
            simp [hid] at this
        · simp only [if_neg hid, ih]
          constructor
          · intro H k hk
            cases k with
            | zero => rw [refsNode_cons_zero, ht]; simpa using hid
            | succ m => rw [refsNode_cons_succ]; exact H m (by omega)
          · intro H k hk
            rw [← refsNode_cons_succ t rest k nid]
            exact H (k + 1) (by omega)

theorem scanDup_eq_some_of (ts : List Terminal) (i skip nid k : Nat)
    (hk : refsNode ts k nid = true) (hne : i + k ≠ skip)
    (hmin : ∀ m, m < k → i + m ≠ skip → refsNode ts m nid = false) :
    scanDup ts i skip nid = some (i + k) := by
  induction ts generalizing i k with
  | nil => rw [refsNode_nil] at hk; cases hk
  | cons t rest ih =>
    unfold scanDup
    by_cases hi : i = skip
    · have hk0 : k ≠ 0 := by omega
      obtain ⟨m, rfl⟩ : ∃ m, k = m + 1 := ⟨k - 1, by omega⟩
      rw [refsNode_cons_succ] at hk
      rw [if_pos hi]
      have hrec := ih (i + 1) m hk (by omega)
        (fun m' hm' hne' => by
          have := hmin (m' + 1) (by omega) (by omega)
          rwa [refsNode_cons_succ] at this)
      rw [hrec]
      congr 1
      omega
    · simp only [if_neg hi]
      cases k with
      | zero =>
        rw [refsNode_cons_zero] at hk
        cases ht : t.node with
        | none => rw [ht] at hk; cases hk
        | some nr =>
          rw [ht] at hk
          simp only [Terminal.get_node, ht]
          simp only [decide_eq_true_eq] at hk
          simp [hk]
      | succ m =>
        rw [refsNode_cons_succ] at hk
        have hrec := ih (i + 1) m hk (by omega)
          (fun m' hm' hne' => by
            have := hmin (m' + 1) (by omega) (by omega)
            rwa [refsNode_cons_succ] at this)
        cases ht : t.node with
        | none =>
          simp only [Terminal.get_node, ht]
          rw [hrec]
          congr 1
          omega
        | some nr =>
          have h0 := hmin 0 (by omega) (by omega)
          rw [refsNode_cons_zero, ht] at h0
          simp only [decide_eq_false_iff_not] at h0
          simp only [Terminal.get_node, ht, if_neg h0]
          rw [hrec]
          congr 1
          omega

theorem scanDup_eq_some_imp (ts : List Terminal) (i skip nid j : Nat)
    (h : scanDup ts i skip nid = some j) :
    ∃ k, j = i + k ∧ i + k ≠ skip ∧ refsNode ts k nid = true ∧
      ∀ m, m < k → i + m ≠ skip → refsNode ts m nid = false := by
  induction ts generalizing i with
  | nil => simp [scanDup] at h
  | cons t rest ih =>
    unfold scanDup at h
    by_cases hi : i = skip
    · rw [if_pos hi] at h
      obtain ⟨k, hk1, hk2, hk3, hk4⟩ := ih (i + 1) h
      refine ⟨k + 1, by omega, by omega, by rwa [refsNode_cons_succ], ?_⟩
      intro m hm hne
      cases m with
      | zero => exact absurd (by omega) hne
      | succ m' =>
        rw [refsNode_cons_succ]
        exact hk4 m' (by omega) (by omega)
    · rw [if_neg hi] at h
      cases ht : t.node with
      | none =>
        simp only [Terminal.get_node, ht] at h
        obtain ⟨k, hk1, hk2, hk3, hk4⟩ := ih (i + 1) h
        refine ⟨k + 1, by omega, by omega, by rwa [refsNode_cons_succ], ?_⟩
        intro m hm hne
        cases m with
        | zero => rw [refsNode_cons_zero, ht]
        | succ m' =>
          rw [refsNode_cons_succ]
          exact hk4 m' (by omega) (by omega)
      | some nr =>
        simp only [Terminal.get_node, ht] at h
        by_cases hid : nr.id = nid
        · rw [if_pos hid] at h
          injection h with hj
          refine ⟨0, by omega, by omega, ?_, ?_⟩
          · rw [refsNode_cons_zero, ht]
            simpa using hid
          · intro m hm hne
            exact absurd hm (by omega)
        · rw [if_neg hid] at h
          obtain ⟨k, hk1, hk2, hk3, hk4⟩ := ih (i + 1) h
          refine ⟨k + 1, by omega, by omega, by rwa [refsNode_cons_succ], ?_⟩
          intro m hm hne
          cases m with
          | zero => rw [refsNode_cons_zero, ht]; simpa using hid
          | succ m' =>
            rw [refsNode_cons_succ]
            exact hk4 m' (by omega) (by omega)

theorem discScan_eq_none_iff (ts : List Terminal) (nid : Nat) :
    discScan ts nid = none ↔ ∀ k, refsNode ts k nid = false := by
  induction ts with
  | nil => simp [discScan, refsNode_nil]
  | cons t rest ih =>
    unfold discScan
    cases ht : t.node with
    | none =>
      simp only [Terminal.get_node, ht, Option.map_eq_none', ih]
      constructor
      · intro H k
        cases k with
        | zero => rw [refsNode_cons_zero, ht]
        | succ m => rw [refsNode_cons_succ]; exact H m
      · intro H k
        rw [← refsNode_cons_succ t rest k nid]
        exact H (k + 1)
    | some nr =>
      by_cases hid : nr.id = nid
      · simp only [Terminal.get_node, ht, if_pos hid]
        constructor
        · intro H; cases H
        · intro H
          have := H 0
          rw [refsNode_cons_zero, ht] at this
          simp [hid] at this
      · simp only [Terminal.get_node, ht, if_neg hid, Option.map_eq_none', ih]
        constructor
        · intro H k
          cases k with
          | zero => rw [refsNode_cons_zero, ht]; simpa using hid
          | succ m => rw [refsNode_cons_succ]; exact H m
        · intro H k
          rw [← refsNode_cons_succ t rest k nid]
          exact H (k + 1)

theorem discScan_eq_some_of (ts : List Terminal) (nid k : Nat)
    (hk : refsNode ts k nid = true) (hmin : ∀ m, m < k → refsNode ts m nid = false) :
    discScan ts nid = some (.ok (), ts.set k { node := none }) := by
  induction ts generalizing k with
  | nil => rw [refsNode_nil] at hk; cases hk
  | cons t rest ih =>
    unfold discScan
    cases k with
    | zero =>
      rw [refsNode_cons_zero] at hk
      cases ht : t.node with
      | none => rw [ht] at hk; cases hk
      | some nr =>
        rw [ht] at hk
        simp only [decide_eq_true_eq] at hk
        simp only [Terminal.get_node, ht, if_pos hk]
        simp [Terminal.disconnect, ht, List.set_cons_zero]
    | succ m =>
      rw [refsNode_cons_succ] at hk
      have h0 := hmin 0 (by omega)
      rw [refsNode_cons_zero] at h0
      have hrec := ih m hk (fun m' hm' => by
        have := hmin (m' + 1) (by omega)
        rwa [refsNode_cons_succ] at this)
      cases ht : t.node with
      | none =>
        simp only [Terminal.get_node, ht]
        rw [hrec]
        simp [List.set_cons_succ]
      | some nr =>
        rw [ht] at h0
        simp only [decide_eq_false_iff_not] at h0
        simp only [Terminal.get_node, ht, if_neg h0]
        rw [hrec]
        simp [List.set_cons_succ]

theorem discScan_eq_some_imp (ts : List Terminal) (nid : Nat) (r : Except Err Unit)
    (ts2 : List Terminal) (h : discScan ts nid = some (r, ts2)) :
    ∃ k, refsNode ts k nid = true ∧ (∀ m, m < k → refsNode ts m nid = false) ∧
      r = .ok () ∧ ts2 = ts.set k { node := none } := by
  induction ts generalizing r ts2 with
  | nil => simp [discScan] at h
  | cons t rest ih =>
    unfold discScan at h
    cases ht : t.node with
    | some nr =>
      by_cases hid : nr.id = nid
      · simp only [Terminal.get_node, ht, if_pos hid, Terminal.disconnect,
          Option.some.injEq, Prod.mk.injEq] at h
        obtain ⟨h1, h2⟩ := h
        refine ⟨0, ?_, fun m hm => absurd hm (by omega), h1.symm, ?_⟩
        · rw [refsNode_cons_zero, ht]; simpa using hid
        · rw [List.set_cons_zero]; exact h2.symm
      · simp only [Terminal.get_node, ht, if_neg hid] at h
        obtain ⟨⟨r', rest2⟩, hp, hf⟩ := Option.map_eq_some'.mp h
        simp only [Prod.mk.injEq] at hf
        obtain ⟨hf1, hf2⟩ := hf
        obtain ⟨k, hk1, hk2, hk3, hk4⟩ := ih r' rest2 hp
        refine ⟨k + 1, by rwa [refsNode_cons_succ], ?_, by rw [← hf1]; exact hk3, ?_⟩
        · intro m hm
          cases m with
          | zero => rw [refsNode_cons_zero, ht]; simpa using hid
          | succ m' => rw [refsNode_cons_succ]; exact hk2 m' (by omega)
        · rw [List.set_cons_succ, ← hf2, hk4]
    | none =>
      simp only [Terminal.get_node, ht] at h
      obtain ⟨⟨r', rest2⟩, hp, hf⟩ := Option.map_eq_some'.mp h
      simp only [Prod.mk.injEq] at hf
      obtain ⟨hf1, hf2⟩ := hf
      obtain ⟨k, hk1, hk2, hk3, hk4⟩ := ih r' rest2 hp
      refine ⟨k + 1, by rwa [refsNode_cons_succ], ?_, by rw [← hf1]; exact hk3, ?_⟩
      · intro m hm
        cases m with
        | zero => rw [refsNode_cons_zero, ht]
        | succ m' => rw [refsNode_cons_succ]; exact hk2 m' (by omega)
      · rw [List.set_cons_succ, ← hf2, hk4]

/-! ### Characterizations of Component.connect and Component.disconnect -/

theorem connect_scan_none (c : Component) (n : NodeRef) (ti : Nat)
    (h : ∀ j, j ≠ ti → refsNode c.terminals j n.id = false) :
    scanDup c.terminals 0 ti n.id = none :=
  (scanDup_eq_none_iff c.terminals 0 ti n.id).mpr (fun k hk => h k (by omega))

theorem connect_eq_dup (c : Component) (n : NodeRef) (ti j : Nat)
    (h1 : j ≠ ti) (h2 : refsNode c.terminals j n.id = true)
    (h3 : ∀ m, m < j → m ≠ ti → refsNode c.terminals m n.id = false) :
    c.connect n ti = (.error (.duplicateNodeConnection c.name n.name j), c) := by
  unfold Component.connect
  have hs := scanDup_eq_some_of c.terminals 0 ti n.id j h2 (by omega)
    (fun m hm hne => h3 m hm (by omega))
  rw [Nat.zero_add] at hs
  rw [hs]

theorem connect_eq_oob (c : Component) (n : NodeRef) (ti : Nat)
    (h : ∀ j, j ≠ ti → refsNode c.terminals j n.id = false)
    (hlen : c.terminals.length ≤ ti) :
    c.connect n ti =
      (.error (.terminalIndexOutOfRange c.name c.ty ti c.terminals.length), c) := by
  unfold Component.connect Component.terminal
  rw [connect_scan_none c n ti h, List.getElem?_eq_none hlen]

theorem connect_eq_occupied (c : Component) (n : NodeRef) (ti : Nat) (t : Terminal)
    (nr : NodeRef) (h : ∀ j, j ≠ ti → refsNode c.terminals j n.id = false)
    (ht : c.terminals[ti]? = some t) (hn : t.node = some nr) :
    c.connect n ti = (.error .alreadyConnected, c) := by
  unfold Component.connect Component.terminal
  rw [connect_scan_none c n ti h, ht]
  simp only [Terminal.connect, hn]
  rw [List.set_self_of_getElem? c.terminals ti t ht]

theorem connect_eq_free (c : Component) (n : NodeRef) (ti : Nat) (t : Terminal)
    (h : ∀ j, j ≠ ti → refsNode c.terminals j n.id = false)
    (ht : c.terminals[ti]? = some t) (hn : t.node = none) :
    c.connect n ti =
      (.ok (), { c with terminals := c.terminals.set ti { node := some n } }) := by
  unfold Component.connect Component.terminal
  rw [connect_scan_none c n ti h, ht]
  simp only [Terminal.connect, hn]

theorem Terminal.connect_of_none (t : Terminal) (n : NodeRef) (h : t.node = none) :
    t.connect n = (.ok (), { node := some n }) := by
  unfold Terminal.connect
  rw [h]

theorem Terminal.connect_of_some (t : Terminal) (n nr : NodeRef) (h : t.node = some nr) :
    t.connect n = (.error .alreadyConnected, t) := by
  unfold Terminal.connect
  rw [h]

theorem connect_error_unchanged (c : Component) (n : NodeRef) (ti : Nat) (e : Err)
    (h : (c.connect n ti).1 = .error e) : (c.connect n ti).2 = c := by
  unfold Component.connect Component.terminal at *
  cases hs : scanDup c.terminals 0 ti n.id with
  | some j => simp [hs]
  | none =>
    simp only [hs] at h ⊢
    cases hti : c.terminals[ti]? with
    | none => simp [hti]
    | some t =>
      simp only [hti] at h ⊢
      cases hn : t.node with
      | none =>
        rw [Terminal.connect_of_none t n hn] at h
        exact Except.noConfusion h
      | some nr =>
        rw [Terminal.connect_of_some t n nr hn]
        show { c with terminals := c.terminals.set ti t } = c
        rw [List.set_self_of_getElem? c.terminals ti t hti]

theorem connect_ok_inv (c : Component) (n : NodeRef) (ti : Nat) (c2 : Component)
    (h : c.connect n ti = (.ok (), c2)) :
    (∀ j, j ≠ ti → refsNode c.terminals j n.id = false) ∧
    ∃ t, c.terminals[ti]? = some t ∧ t.node = none ∧
      c2 = { c with terminals := c.terminals.set ti { node := some n } } := by
  unfold Component.connect Component.terminal at h
  cases hs : scanDup c.terminals 0 ti n.id with
  | some j => simp [hs] at h
  | none =>
    simp only [hs] at h
    have hnone : ∀ j, j ≠ ti → refsNode c.terminals j n.id = false := by
      intro j hj
      exact (scanDup_eq_none_iff c.terminals 0 ti n.id).mp hs j (by omega)
    cases hti : c.terminals[ti]? with
    | none => simp [hti] at h
    | some t =>
      simp only [hti] at h
      cases hn : t.node with
      | some nr =>
        rw [Terminal.connect_of_some t n nr hn] at h
        simp at h
      | none =>
        rw [Terminal.connect_of_none t n hn] at h
        simp only [Prod.mk.injEq, true_and] at h
        exact ⟨hnone, t, rfl, hn, h.symm⟩

theorem disconnect_eq_found (c : Component) (n : NodeRef) (k : Nat)
    (hk : refsNode c.terminals k n.id = true)
    (hmin : ∀ m, m < k → refsNode c.terminals m n.id = false) :
    c.disconnect n =
      (.ok (), { c with terminals := c.terminals.set k { node := none } }) := by
  unfold Component.disconnect
  rw [discScan_eq_some_of c.terminals n.id k hk hmin]

theorem disconnect_eq_notfound (c : Component) (n : NodeRef)
    (h : ∀ k, refsNode c.terminals k n.id = false) :
    c.disconnect n = (.error (.notConnectedToNode c.name n.name), c) := by
  unfold Component.disconnect
  rw [(discScan_eq_none_iff c.terminals n.id).mpr h]

theorem disconnect_snd_cases (c : Component) (n : NodeRef) :
    (c.disconnect n).2 = c ∨
    ∃ k, (c.disconnect n).2 = { c with terminals := c.terminals.set k { node := none } } := by
  unfold Component.disconnect
  cases hs : discScan c.terminals n.id with
  | none => left; rfl
  | some p =>
    obtain ⟨r, ts2⟩ := p
    obtain ⟨k, _, _, _, hts⟩ := discScan_eq_some_imp c.terminals n.id r ts2 hs
    right
    exact ⟨k, by simp [hts]⟩

/-! ### Frame lemmas: each operation touches only its own sub-entity -/

theorem opn_frame (c : Component) :
    c.opn.2.ty = c.ty ∧ c.opn.2.name = c.name ∧
    c.opn.2.terminals = c.terminals ∧ c.opn.2.measurement = c.measurement := by
  unfold Component.opn
  cases c.position <;> simp

theorem cls_frame (c : Component) :
    c.cls.2.ty = c.ty ∧ c.cls.2.name = c.name ∧
    c.cls.2.terminals = c.terminals ∧ c.cls.2.measurement = c.measurement := by
  unfold Component.cls
  cases c.position <;> simp

theorem update_frame (c : Component) (x : Float) :
    (c.update x).2.ty = c.ty ∧ (c.update x).2.name = c.name ∧
    (c.update x).2.terminals = c.terminals ∧ (c.update x).2.position = c.position := by
  unfold Component.update
  cases c.measurement <;> simp

theorem connect_frame (c : Component) (n : NodeRef) (ti : Nat) :
    (c.connect n ti).2.ty = c.ty ∧ (c.connect n ti).2.name = c.name ∧
    (c.connect n ti).2.position = c.position ∧
    (c.connect n ti).2.measurement = c.measurement := by
  unfold Component.connect
  cases scanDup c.terminals 0 ti n.id with
  | some j => simp
  | none =>
    cases c.terminal ti with
    | error e => simp
    | ok t => simp

theorem disconnect_frame (c : Component) (n : NodeRef) :
    (c.disconnect n).2.ty = c.ty ∧ (c.disconnect n).2.name = c.name ∧
    (c.disconnect n).2.position = c.position ∧
    (c.disconnect n).2.measurement = c.measurement := by
  unfold Component.disconnect
  cases discScan c.terminals n.id with
  | some p => simp
  | none => simp

theorem opn_none (c : Component) (h : c.position = none) :
    c.opn = (.error (.noPositionCapability c.ty), c) := by
  unfold Component.opn
  rw [h]

theorem cls_none (c : Component) (h : c.position = none) :
    c.cls = (.error (.noPositionCapability c.ty), c) := by
  unfold Component.cls
  rw [h]

theorem update_none (c : Component) (x : Float) (h : c.measurement = none) :
    c.update x = (.error (.noMeasurementCapability c.ty), c) := by
  unfold Component.update
  rw [h]

theorem value_none (c : Component) (h : c.measurement = none) :
    c.value = .error (.noMeasurementCapability c.ty) := by
  unfold Component.value
  rw [h]

theorem update_some (c : Component) (x : Float) (m : Measurement)
    (h : c.measurement = some m) :
    c.update x = (.ok (), { c with measurement := some ⟨x⟩ }) := by
  unfold Component.update
  rw [h]
  rfl

theorem value_some (c : Component) (m : Measurement) (h : c.measurement = some m) :
    c.value = .ok m.value := by
  unfold Component.value
  rw [h]

/-! ### Preservation along operation sequences -/

theorem refsNode_false_imp (ts : List Terminal) (k nid : Nat)
    (h : refsNode ts k nid = false) :
    ∀ t nr, ts[k]? = some t → t.node = some nr → nr.id ≠ nid := by
  intro t nr ht hn hid
  have : refsNode ts k nid = true := (refsNode_true_iff ts k nid).mpr ⟨t, nr, ht, hn, hid⟩
  rw [h] at this
  cases this

theorem applyOp_ty (c : Component) (op : Op) : (c.applyOp op).ty = c.ty := by
  cases op with
  | connect n ti => exact (connect_frame c n ti).1
  | disconnect n => exact (disconnect_frame c n).1
  | opn => exact (opn_frame c).1
  | cls => exact (cls_frame c).1
  | update x => exact (update_frame c x).1

theorem applyOp_name (c : Component) (op : Op) : (c.applyOp op).name = c.name := by
  cases op with
  | connect n ti => exact (connect_frame c n ti).2.1
  | disconnect n => exact (disconnect_frame c n).2.1
  | opn => exact (opn_frame c).2.1
  | cls => exact (cls_frame c).2.1
  | update x => exact (update_frame c x).2.1

theorem applyOp_position_none (c : Component) (op : Op) (h : c.position = none) :
    (c.applyOp op).position = none := by
  cases op with
  | connect n ti => rw [show (c.applyOp (.connect n ti)).position = c.position from
      (connect_frame c n ti).2.2.1]; exact h
  | disconnect n => rw [show (c.applyOp (.disconnect n)).position = c.position from
      (disconnect_frame c n).2.2.1]; exact h
  | opn => show (c.opn).2.position = none; rw [opn_none c h]; exact h
  | cls => show (c.cls).2.position = none; rw [cls_none c h]; exact h
  | update x => rw [show (c.applyOp (.update x)).position = c.position from
      (update_frame c x).2.2.2]; exact h

theorem applyOp_measurement_none (c : Component) (op : Op) (h : c.measurement = none) :
    (c.applyOp op).measurement = none := by
  cases op with
  | connect n ti => rw [show (c.applyOp (.connect n ti)).measurement = c.measurement from
      (connect_frame c n ti).2.2.2]; exact h
  | disconnect n => rw [show (c.applyOp (.disconnect n)).measurement = c.measurement from
      (disconnect_frame c n).2.2.2]; exact h
  | opn => show (c.opn).2.measurement = none; rw [(opn_frame c).2.2.2]; exact h
  | cls => show (c.cls).2.measurement = none; rw [(cls_frame c).2.2.2]; exact h
  | update x => show (c.update x).2.measurement = none; rw [update_none c x h]; exact h

theorem applyOp_measurement_isSome (c : Component) (op : Op)
    (h : c.measurement.isSome = true) : ((c.applyOp op).measurement).isSome = true := by
  cases op with
  | connect n ti => rw [show (c.applyOp (.connect n ti)).measurement = c.measurement from
      (connect_frame c n ti).2.2.2]; exact h
  | disconnect n => rw [show (c.applyOp (.disconnect n)).measurement = c.measurement from
      (disconnect_frame c n).2.2.2]; exact h
  | opn => show ((c.opn).2.measurement).isSome = true; rw [(opn_frame c).2.2.2]; exact h
  | cls => show ((c.cls).2.measurement).isSome = true; rw [(cls_frame c).2.2.2]; exact h
  | update x =>
    cases hm : c.measurement with
    | none => rw [hm] at h; cases h
    | some m =>
      show ((c.update x).2.measurement).isSome = true
      rw [update_some c x m hm]
      rfl

theorem applyOps_nil (c : Component) : c.applyOps [] = c := rfl

theorem applyOps_cons (c : Component) (op : Op) (ops : List Op) :
    c.applyOps (op :: ops) = (c.applyOp op).applyOps ops := rfl

theorem applyOps_ty (c : Component) (ops : List Op) : (c.applyOps ops).ty = c.ty := by
  induction ops generalizing c with
  | nil => rfl
  | cons op rest ih => rw [applyOps_cons, ih, applyOp_ty]

theorem applyOps_name (c : Component) (ops : List Op) :
    (c.applyOps ops).name = c.name := by
  induction ops generalizing c with
  | nil => rfl
  | cons op rest ih => rw [applyOps_cons, ih, applyOp_name]

theorem applyOps_position_none (c : Component) (ops : List Op) (h : c.position = none) :
    (c.applyOps ops).position = none := by
  induction ops generalizing c with
  | nil => exact h
  | cons op rest ih => rw [applyOps_cons]; exact ih _ (applyOp_position_none c op h)

theorem applyOps_measurement_none (c : Component) (ops : List Op)
    (h : c.measurement = none) : (c.applyOps ops).measurement = none := by
  induction ops generalizing c with
  | nil => exact h
  | cons op rest ih => rw [applyOps_cons]; exact ih _ (applyOp_measurement_none c op h)

theorem applyOps_measurement_isSome (c : Component) (ops : List Op)
    (h : c.measurement.isSome = true) :
    ((c.applyOps ops).measurement).isSome = true := by
  induction ops generalizing c with
  | nil => exact h
  | cons op rest ih => rw [applyOps_cons]; exact ih _ (applyOp_measurement_isSome c op h)

/-! ### The no-duplicate-node invariant -/

theorem nodesDistinct_of_terminals_eq (c c2 : Component)
    (hts : c2.terminals = c.terminals) (h : nodesDistinct c) : nodesDistinct c2 := by
  intro i j hij ti tj hti htj ni nj hni hnj
  rw [hts] at hti htj
  exact h i j hij ti tj hti htj ni nj hni hnj

theorem nodesDistinct_new (ty : ComponentType) (name : String) :
    nodesDistinct (Component.new ty name) := by
  intro i j hij ti tj hti htj ni nj hni hnj
  have hts : (Component.new ty name).terminals =
      List.replicate ty.terminalCount Terminal.new := rfl
  rw [hts, List.getElem?_replicate] at hti
  split at hti
  · injection hti with hti
    rw [← hti] at hni
    cases hni
  · cases hti

theorem nodesDistinct_set_clear (c : Component) (k : Nat) (h : nodesDistinct c) :
    nodesDistinct { c with terminals := c.terminals.set k { node := none } } := by
  intro i j hij ti tj hti htj ni nj hni hnj
  simp only [List.getElem?_set] at hti htj
  by_cases hik : k = i
  · rw [if_pos hik] at hti
    split at hti
    · injection hti with hti
      rw [← hti] at hni
      cases hni
    · cases hti
  · rw [if_neg hik] at hti
    by_cases hjk : k = j
    · rw [if_pos hjk] at htj
      split at htj
      · injection htj with htj
        rw [← htj] at hnj
        cases hnj
      · cases htj
    · rw [if_neg hjk] at htj
      exact h i j hij ti tj hti htj ni nj hni hnj

theorem nodesDistinct_connect (c : Component) (n : NodeRef) (ti : Nat)
    (h : nodesDistinct c) : nodesDistinct (c.connect n ti).2 := by
  cases hr : (c.connect n ti).1 with
  | error e =>
    rw [connect_error_unchanged c n ti e hr]
    exact h
  | ok u =>
    cases u
    have hpair : c.connect n ti = (.ok (), (c.connect n ti).2) := by
      rw [← hr]
    obtain ⟨hno, t, htg, htn, hc2⟩ := connect_ok_inv c n ti (c.connect n ti).2 hpair
    rw [hc2]
    have hlt : ti < c.terminals.length := by
      by_contra hge
      rw [List.getElem?_eq_none (by omega)] at htg
      cases htg
    intro i j hij ti2 tj2 hti2 htj2 ni nj hni hnj
    simp only [List.getElem?_set] at hti2 htj2
    by_cases hik : ti = i
    · rw [if_pos hik, if_pos (hik ▸ hlt)] at hti2
      injection hti2 with hti2
      rw [← hti2] at hni
      injection hni with hni
      have hjne : j ≠ ti := by omega
      rw [if_neg (by omega)] at htj2
      have := refsNode_false_imp c.terminals j n.id (hno j hjne) tj2 nj htj2 hnj
      rw [← hni]
      omega
    · rw [if_neg hik] at hti2
      by_cases hjk : ti = j
      · rw [if_pos hjk, if_pos (hjk ▸ hlt)] at htj2
        injection htj2 with htj2
        rw [← htj2] at hnj
        injection hnj with hnj
        have hine : i ≠ ti := by omega
        have := refsNode_false_imp c.terminals i n.id (hno i hine) ti2 ni hti2 hni
        rw [← hnj]
        omega
      · rw [if_neg hjk] at htj2
        exact h i j hij ti2 tj2 hti2 htj2 ni nj hni hnj

theorem nodesDistinct_disconnect (c : Component) (n : NodeRef)
    (h : nodesDistinct c) : nodesDistinct (c.disconnect n).2 := by
  cases disconnect_snd_cases c n with
  | inl heq => rw [heq]; exact h
  | inr hex =>
    obtain ⟨k, heq⟩ := hex
    rw [heq]
    exact nodesDistinct_set_clear c k h

theorem nodesDistinct_applyOp (c : Component) (op : Op) (h : nodesDistinct c) :
    nodesDistinct (c.applyOp op) := by
  cases op with
  | connect n ti => exact nodesDistinct_connect c n ti h
  | disconnect n => exact nodesDistinct_disconnect c n h
  | opn => exact nodesDistinct_of_terminals_eq c _ (opn_frame c).2.2.1 h
  | cls => exact nodesDistinct_of_terminals_eq c _ (cls_frame c).2.2.1 h
  | update x => exact nodesDistinct_of_terminals_eq c _ (update_frame c x).2.2.1 h

theorem nodesDistinct_applyOps (c : Component) (ops : List Op) (h : nodesDistinct c) :
    nodesDistinct (c.applyOps ops) := by
  induction ops generalizing c with
  | nil => exact h
  | cons op rest ih => rw [applyOps_cons]; exact ih _ (nodesDistinct_applyOp c op h)

/-! ### Node registry lemmas -/

theorem findIdx?_first_aux {α : Type _} (p : α → Bool) (l1 : List α) (x : α)
    (l2 : List α) (i : Nat) (h1 : ∀ y ∈ l1, p y = false) (hx : p x = true) :
    List.findIdx? p (l1 ++ x :: l2) i = some (i + l1.length) := by
  induction l1 generalizing i with
  | nil => simp [List.findIdx?_cons, hx]
  | cons a as ih =>
    have ha := h1 a (by simp)
    rw [List.cons_append, List.findIdx?_cons, ha]
    simp only [Bool.false_eq_true, if_false]
    rw [ih (i + 1) (fun y hy => h1 y (by simp [hy]))]
    congr 1
    simp
    omega

theorem eraseIdx_append_cons {α : Type _} (l1 : List α) (x : α) (l2 : List α) :
    (l1 ++ x :: l2).eraseIdx l1.length = l1 ++ l2 := by
  induction l1 with
  | nil => rfl
  | cons a as ih => simp [List.eraseIdx, ih]

theorem refsNode_replicate (m k nid : Nat) :
    refsNode (List.replicate m Terminal.new) k nid = false := by
  unfold refsNode
  rw [List.getElem?_replicate]
  by_cases h : k < m
  · rw [if_pos h]
    rfl
  · rw [if_neg h]

theorem node_add_name (nd : Node) (cr : CompRef) :
    (nd.add_component cr).2.name = nd.name := by
  unfold Node.add_component
  split
  · rfl
  · rfl

theorem node_remove_name (nd : Node) (cr : CompRef) :
    (nd.remove_component cr).2.name = nd.name := by
  unfold Node.remove_component
  split
  · rfl
  · rfl

/-! ### Claims -/

/-- Claim C1, counterexample: on a CircuitBreaker whose terminal 0 already
holds the node, `connect(node, 2)` with the out-of-range index 2 (the
variant has 2 terminals) fails with the duplicate-node-connection error,
not with `TerminalIndexOutOfRange` — so index validation does NOT come
first. -/
theorem C1_counterexample :
    ComponentType.CircuitBreaker.terminalCount ≤ 2 ∧
    ((((Component.new .CircuitBreaker "cb").connect ⟨0, "node"⟩ 0).2).connect
        ⟨0, "node"⟩ 2).1 = .error (.duplicateNodeConnection "cb" "node" 0) ∧
    ((((Component.new .CircuitBreaker "cb").connect ⟨0, "node"⟩ 0).2).connect
        ⟨0, "node"⟩ 2).1 ≠
      .error (.terminalIndexOutOfRange "cb" .CircuitBreaker 2 2) := by
  refine ⟨by decide, rfl, ?_⟩
  intro h
  rw [show ((((Component.new .CircuitBreaker "cb").connect ⟨0, "node"⟩ 0).2).connect
      ⟨0, "node"⟩ 2).1 = .error (.duplicateNodeConnection "cb" "node" 0) from rfl] at h
  injection h with h
  cases h

/-- Claim C1, amended: `Component.connect(node, terminal_index)` first scans
every other existing terminal for one already referencing `node` by
identity, failing with `DuplicateNodeConnection` naming the first
conflicting terminal (even when `terminal_index` is out of range); only
then validates `terminal_index` (failing with `TerminalIndexOutOfRange`
when it is ≥ the terminal count); and otherwise delegates to
`terminal(terminal_index).connect(node)`, surfacing `AlreadyConnected` on
failure and storing the node on success. -/
theorem C1_thm (c : Component) (n : NodeRef) (ti : Nat) :
    (∀ j, j ≠ ti → refsNode c.terminals j n.id = true →
      (∀ m, m < j → m ≠ ti → refsNode c.terminals m n.id = false) →
      c.connect n ti = (.error (.duplicateNodeConnection c.name n.name j), c))
    ∧ ((∀ j, j ≠ ti → refsNode c.terminals j n.id = false) →
        c.terminals.length ≤ ti →
        c.connect n ti =
          (.error (.terminalIndexOutOfRange c.name c.ty ti c.terminals.length), c))
    ∧ (∀ t nr, (∀ j, j ≠ ti → refsNode c.terminals j n.id = false) →
        c.terminals[ti]? = some t → t.node = some nr →
        c.connect n ti = (.error .alreadyConnected, c))
    ∧ (∀ t, (∀ j, j ≠ ti → refsNode c.terminals j n.id = false) →
        c.terminals[ti]? = some t → t.node = none →
        c.connect n ti =
          (.ok (), { c with terminals := c.terminals.set ti { node := some n } })) := by
  refine ⟨?_, ?_, ?_, ?_⟩
  · intro j hj h2 h3
    exact connect_eq_dup c n ti j hj h2 h3
  · intro h hlen
    exact connect_eq_oob c n ti h hlen
  · intro t nr h ht hn
    exact connect_eq_occupied c n ti t nr h ht hn
  · intro t h ht hn
    exact connect_eq_free c n ti t h ht hn

/-- Claim C1, witness: a fresh CircuitBreaker (no terminal references the
node) with out-of-range index 2 fails with the out-of-range error naming
the count 2. -/
theorem C1_witness :
    (Component.new .CircuitBreaker "cb").connect ⟨0, "node"⟩ 2 =
      (.error (.terminalIndexOutOfRange "cb" .CircuitBreaker 2 2),
        Component.new .CircuitBreaker "cb") :=
  (C1_thm (Component.new .CircuitBreaker "cb") ⟨0, "node"⟩ 2).2.1
    (fun j _ => refsNode_replicate 2 j 0) (by decide)

/-- Claim C2: every failed `connect` leaves the component unchanged; after a
successful `connect(node, ti)`, a second `connect(node, ti)` fails with
`AlreadyConnected` with the first connection intact, and `connect(node, j)`
for any other index `j` fails with `DuplicateNodeConnection` naming `ti`
without altering anything. -/
theorem C2_thm (c : Component) (n : NodeRef) (ti : Nat) :
    (∀ e, (c.connect n ti).1 = .error e → (c.connect n ti).2 = c)
    ∧ (∀ c1, c.connect n ti = (.ok (), c1) →
        c1.connect n ti = (.error .alreadyConnected, c1) ∧
        c1.terminals[ti]? = some { node := some n })
    ∧ (∀ c1 j, c.connect n ti = (.ok (), c1) → j ≠ ti →
        c1.connect n j = (.error (.duplicateNodeConnection c.name n.name ti), c1)) := by
  refine ⟨fun e h => connect_error_unchanged c n ti e h, ?_, ?_⟩
  · intro c1 h
    obtain ⟨hno, t, htg, htn, hc1⟩ := connect_ok_inv c n ti c1 h
    have hlt : ti < c.terminals.length := by
      by_contra hge
      rw [List.getElem?_eq_none (by omega)] at htg
      cases htg
    have hget : c1.terminals[ti]? = some { node := some n } := by
      rw [hc1]
      exact List.getElem?_set_eq_of_lt _ hlt
    have hrefs : ∀ j, j ≠ ti → refsNode c1.terminals j n.id = false := by
      intro j hj
      rw [hc1]
      show refsNode (c.terminals.set ti { node := some n }) j n.id = false
      rw [refsNode_set_ne c.terminals ti j _ n.id (Ne.symm hj)]
      exact hno j hj
    exact ⟨connect_eq_occupied c1 n ti { node := some n } n hrefs hget rfl, hget⟩
  · intro c1 j h hj
    obtain ⟨hno, t, htg, htn, hc1⟩ := connect_ok_inv c n ti c1 h
    have hlt : ti < c.terminals.length := by
      by_contra hge
      rw [List.getElem?_eq_none (by omega)] at htg
      cases htg
    have hget : c1.terminals[ti]? = some { node := some n } := by
      rw [hc1]
      exact List.getElem?_set_eq_of_lt _ hlt
    have hname : c1.name = c.name := by rw [hc1]
    have h2 : refsNode c1.terminals ti n.id = true :=
      (refsNode_true_iff _ _ _).mpr ⟨{ node := some n }, n, hget, rfl, rfl⟩
    have h3 : ∀ m, m < ti → m ≠ j → refsNode c1.terminals m n.id = false := by
      intro m hm hmj
      rw [hc1]
      show refsNode (c.terminals.set ti { node := some n }) m n.id = false
      rw [refsNode_set_ne c.terminals ti m _ n.id (by omega)]
      exact hno m (by omega)
    have hd := connect_eq_dup c1 n j ti (Ne.symm hj) h2 h3
    rw [hname] at hd
    exact hd

/-- Claim C2, witness: on a CircuitBreaker with node connected at terminal 0,
repeating `connect(node, 0)` fails with `AlreadyConnected` and the stored
connection survives. -/
theorem C2_witness :
    (((Component.new .CircuitBreaker "cb").connect ⟨0, "node"⟩ 0).2).connect
        ⟨0, "node"⟩ 0 =
      (.error .alreadyConnected,
        ((Component.new .CircuitBreaker "cb").connect ⟨0, "node"⟩ 0).2) ∧
    (((Component.new .CircuitBreaker "cb").connect ⟨0, "node"⟩ 0).2).terminals[0]? =
      some { node := some ⟨0, "node"⟩ } :=
  (C2_thm (Component.new .CircuitBreaker "cb") ⟨0, "node"⟩ 0).2.1
    ((Component.new .CircuitBreaker "cb").connect ⟨0, "node"⟩ 0).2 rfl

/-- Claim C3: `terminal(index)` returns the stored terminal when the index
is below the variant's terminal count and fails with
`TerminalIndexOutOfRange` naming the actual count when the index is ≥ that
count, the counts being CircuitBreaker=2, Disconnector=2, EarthingSwitch=1,
VoltageTransformer=1, Transformer=3. -/
theorem C3_thm (ty : ComponentType) (name : String) (i : Nat) :
    (Component.new ty name).terminals.length = ty.terminalCount
    ∧ ComponentType.CircuitBreaker.terminalCount = 2
    ∧ ComponentType.Disconnector.terminalCount = 2
    ∧ ComponentType.EarthingSwitch.terminalCount = 1
    ∧ ComponentType.VoltageTransformer.terminalCount = 1
    ∧ ComponentType.Transformer.terminalCount = 3
    ∧ (i < ty.terminalCount →
        (Component.new ty name).terminal i = .ok Terminal.new)
    ∧ (ty.terminalCount ≤ i →
        (Component.new ty name).terminal i =
          .error (.terminalIndexOutOfRange name ty i ty.terminalCount)) := by
  refine ⟨List.length_replicate _ _, rfl, rfl, rfl, rfl, rfl, ?_, ?_⟩
  · intro h
    unfold Component.terminal
    have hg : (Component.new ty name).terminals[i]? = some Terminal.new := by
      show (List.replicate ty.terminalCount Terminal.new)[i]? = some Terminal.new
      rw [List.getElem?_replicate, if_pos h]
    rw [hg]
  · intro h
    unfold Component.terminal
    have hg : (Component.new ty name).terminals[i]? = none := by
      show (List.replicate ty.terminalCount Terminal.new)[i]? = none
      rw [List.getElem?_replicate, if_neg (by omega)]
    have hlen : (Component.new ty name).terminals.length = ty.terminalCount :=
      List.length_replicate _ _
    rw [hg, hlen]
    rfl

/-- Claim C3, witness: on a Transformer, `terminal(3)` fails naming count 3
and `terminal(2)` succeeds. -/
theorem C3_witness :
    (Component.new .Transformer "tf").terminal 3 =
      .error (.terminalIndexOutOfRange "tf" .Transformer 3 3) ∧
    (Component.new .Transformer "tf").terminal 2 = .ok Terminal.new :=
  ⟨(C3_thm .Transformer "tf" 3).2.2.2.2.2.2.2 (by decide),
   (C3_thm .Transformer "tf" 2).2.2.2.2.2.2.1 (by decide)⟩

/-- Claim C4: `disconnect(node)` scans the terminals in ascending index
order; at the first terminal referencing `node` by identity it delegates to
that terminal's `disconnect()` and returns its result (success with the
reference cleared); when no terminal matches — in particular on a freshly
constructed component — it fails with `NotConnectedToNode`. -/
theorem C4_thm (c : Component) (n : NodeRef) :
    ((∀ k, refsNode c.terminals k n.id = false) →
      c.disconnect n = (.error (.notConnectedToNode c.name n.name), c))
    ∧ (∀ i, refsNode c.terminals i n.id = true →
        (∀ m, m < i → refsNode c.terminals m n.id = false) →
        c.disconnect n =
          (.ok (), { c with terminals := c.terminals.set i { node := none } }))
    ∧ (∀ ty nm, (Component.new ty nm).disconnect n =
        (.error (.notConnectedToNode nm n.name), Component.new ty nm)) := by
  refine ⟨fun h => disconnect_eq_notfound c n h,
    fun i hi hmin => disconnect_eq_found c n i hi hmin, ?_⟩
  intro ty nm
  exact disconnect_eq_notfound (Component.new ty nm) n
    (fun k => refsNode_replicate ty.terminalCount k n.id)

/-- Claim C4, witness: a fresh CircuitBreaker with one terminal holding the
node at index 0; disconnect removes exactly that reference. -/
theorem C4_witness :
    (Component.new .CircuitBreaker "cb").disconnect ⟨0, "node"⟩ =
      (.error (.notConnectedToNode "cb" "node"), Component.new .CircuitBreaker "cb") :=
  (C4_thm (Component.new .CircuitBreaker "cb") ⟨0, "node"⟩).2.2 .CircuitBreaker "cb"

/-- Claim C5: on a freshly constructed component of a variant with the
position capability, `open()` fails with `AlreadyOpen`, a following
`close()` succeeds, a second `close()` fails with `AlreadyClosed`, and a
subsequent `open()` succeeds; on a variant without the capability
(VoltageTransformer, Transformer) `open()` and `close()` always fail with
`NoPositionCapability`, whatever operations were performed before. -/
theorem C5_thm (ty : ComponentType) (name : String) (ops : List Op) :
    (ty.hasPosition = true →
      (Component.new ty name).opn = (.error .alreadyOpen, Component.new ty name) ∧
      ((Component.new ty name).cls).1 = .ok () ∧
      (((Component.new ty name).cls).2).cls =
        (.error .alreadyClosed, ((Component.new ty name).cls).2) ∧
      ((((Component.new ty name).cls).2).opn).1 = .ok ())
    ∧ (ty.hasPosition = false →
        ((Component.new ty name).applyOps ops).opn =
          (.error (.noPositionCapability ty), (Component.new ty name).applyOps ops) ∧
        ((Component.new ty name).applyOps ops).cls =
          (.error (.noPositionCapability ty), (Component.new ty name).applyOps ops)) := by
  constructor
  · intro h
    cases ty
    case CircuitBreaker => exact ⟨rfl, rfl, rfl, rfl⟩
    case Disconnector => exact ⟨rfl, rfl, rfl, rfl⟩
    case EarthingSwitch => exact ⟨rfl, rfl, rfl, rfl⟩
    case VoltageTransformer => exact Bool.noConfusion h
    case Transformer => exact Bool.noConfusion h
  · intro h
    have hpos : (Component.new ty name).position = none := by
      simp [Component.new, h]
    have hp := applyOps_position_none (Component.new ty name) ops hpos
    constructor
    · rw [opn_none _ hp, applyOps_ty]
      rfl
    · rw [cls_none _ hp, applyOps_ty]
      rfl

/-- Claim C5, witness: the open/close scenario on a fresh CircuitBreaker. -/
theorem C5_witness :
    (Component.new .CircuitBreaker "cb").opn =
      (.error .alreadyOpen, Component.new .CircuitBreaker "cb") ∧
    ((Component.new .CircuitBreaker "cb").cls).1 = .ok () ∧
    (((Component.new .CircuitBreaker "cb").cls).2).cls =
      (.error .alreadyClosed, ((Component.new .CircuitBreaker "cb").cls).2) ∧
    ((((Component.new .CircuitBreaker "cb").cls).2).opn).1 = .ok () :=
  (C5_thm .CircuitBreaker "cb" []).1 rfl

/-- Claim C6: a freshly constructed VoltageTransformer reads 0.0; on any
VoltageTransformer state (after any operation sequence) `update(x)`
succeeds and a subsequent `value()` returns exactly `x`; every variant
without the measurement capability fails `update`/`value` with
`NoMeasurementCapability`. -/
theorem C6_thm (name : String) (x : Float) (ops : List Op) (ty : ComponentType) :
    (Component.new .VoltageTransformer name).value = .ok 0.0
    ∧ ((((Component.new .VoltageTransformer name).applyOps ops).update x).1 = .ok ()
        ∧ ((((Component.new .VoltageTransformer name).applyOps ops).update x).2).value =
            .ok x)
    ∧ (ty.hasMeasurement = false →
        (Component.new ty name).update x =
          (.error (.noMeasurementCapability ty), Component.new ty name) ∧
        (Component.new ty name).value = .error (.noMeasurementCapability ty)) := by
  refine ⟨rfl, ?_, ?_⟩
  · have hm := applyOps_measurement_isSome (Component.new .VoltageTransformer name) ops rfl
    cases hmm : ((Component.new .VoltageTransformer name).applyOps ops).measurement with
    | none => rw [hmm] at hm; cases hm
    | some m =>
      rw [update_some _ x m hmm]
      exact ⟨rfl, value_some _ ⟨x⟩ rfl⟩
  · intro h
    have hmn : (Component.new ty name).measurement = none := by
      simp [Component.new, h]
    constructor
    · rw [update_none _ x hmn]
      rfl
    · rw [value_none _ hmn]
      rfl

/-- Claim C6, witness: a Transformer (no measurement capability) fails both
`update` and `value` with `NoMeasurementCapability`. -/
theorem C6_witness :
    (Component.new .Transformer "tf").update 0.0 =
      (.error (.noMeasurementCapability .Transformer), Component.new .Transformer "tf") ∧
    (Component.new .Transformer "tf").value =
      .error (.noMeasurementCapability .Transformer) :=
  (C6_thm "tf" 0.0 [] .Transformer).2.2 rfl

/-- Claim C7: `Node.add_component` fails with `DuplicateComponent` leaving
the registry unchanged when a member with the same reference identity is
already present, and otherwise appends at the end (preserving insertion
order); `Node.remove_component` fails with `ComponentNotFound` when no
member has that identity, and otherwise removes the first such member
keeping the relative order of the rest; identity is the reference, so two
components with the same name but different identity are different. -/
theorem C7_thm (nd : Node) (c : CompRef) (l1 l2 : List CompRef) (x : CompRef) :
    ((∀ y ∈ nd.children, y.id ≠ c.id) →
      nd.add_component c = (.ok (), { nd with children := nd.children ++ [c] }))
    ∧ ((∃ y ∈ nd.children, y.id = c.id) →
        (nd.add_component c).1 = .error (.duplicateComponent c.name nd.name) ∧
        (nd.add_component c).2 = nd)
    ∧ ((∀ y ∈ nd.children, y.id ≠ c.id) →
        nd.remove_component c = (.error (.componentNotFound c.name nd.name), nd))
    ∧ (nd.children = l1 ++ x :: l2 → x.id = c.id → (∀ y ∈ l1, y.id ≠ c.id) →
        nd.remove_component c = (.ok (), { nd with children := l1 ++ l2 }))
    ∧ (∀ i j : Nat, ∀ s nm : String, i ≠ j →
        ((Node.mk nm [⟨i, s⟩]).add_component ⟨j, s⟩).1 = .ok ()) := by
  refine ⟨?_, ?_, ?_, ?_, ?_⟩
  · intro h
    have hnone : List.findIdx? (fun y => decide (y.id = c.id)) nd.children = none :=
      List.findIdx?_eq_none_iff.mpr (fun y hy => by simpa using h y hy)
    unfold Node.add_component
    rw [hnone]
  · intro h
    obtain ⟨y, hy, hid⟩ := h
    cases hfi : List.findIdx? (fun z => decide (z.id = c.id)) nd.children with
    | none =>
      rw [List.findIdx?_eq_none_iff] at hfi
      have := hfi y hy
      simp [hid] at this
    | some k =>
      unfold Node.add_component
      rw [hfi]
      exact ⟨rfl, rfl⟩
  · intro h
    have hnone : List.findIdx? (fun y => decide (y.id = c.id)) nd.children = none :=
      List.findIdx?_eq_none_iff.mpr (fun y hy => by simpa using h y hy)
    unfold Node.remove_component
    rw [hnone]
  · intro hch hxid hl1
    unfold Node.remove_component
    rw [hch]
    rw [findIdx?_first_aux (fun y => decide (y.id = c.id)) l1 x l2 0
      (fun y hy => by simpa using hl1 y hy) (by simpa using hxid)]
    rw [Nat.zero_add]
    show (Except.ok (), { nd with children := (l1 ++ x :: l2).eraseIdx l1.length }) =
      (Except.ok (), { nd with children := l1 ++ l2 })
    rw [eraseIdx_append_cons]
  · intro i j s nm hij
    unfold Node.add_component
    simp [List.findIdx?_cons, List.findIdx?_nil, hij]

/-- Claim C7, witness: a duplicate-identity add fails, an equal-name
different-identity add succeeds. -/
theorem C7_witness :
    ((Node.mk "node" [⟨0, "a"⟩]).add_component ⟨1, "a"⟩).1 = .ok () ∧
    ((Node.mk "node" [⟨0, "cb"⟩]).add_component ⟨0, "cb"⟩).1 =
      .error (.duplicateComponent "cb" "node") :=
  ⟨(C7_thm (Node.mk "node" [⟨0, "a"⟩]) ⟨1, "a"⟩ [] [] ⟨0, "a"⟩).2.2.2.2 0 1 "a" "node"
      (by decide),
   ((C7_thm (Node.mk "node" [⟨0, "cb"⟩]) ⟨0, "cb"⟩ [] [] ⟨0, "cb"⟩).2.1
      ⟨⟨0, "cb"⟩, by simp, rfl⟩).1⟩

/-- Claim C8, counterexample: the rendering of an EarthingSwitch named "es"
is "Component es of type EarthingSwitch" — the `{:?}` Debug tag — and not
the string built from the hand-written Display of `ComponentType`
("Earthing Switch"). -/
theorem C8_counterexample :
    Component.display (Component.new .EarthingSwitch "es") =
      "Component es of type EarthingSwitch" ∧
    Component.display (Component.new .EarthingSwitch "es") ≠
      "Component " ++ "es" ++ " of type " ++ ComponentType.EarthingSwitch.displayStr :=
  ⟨rfl, by decide⟩

/-- Claim C8, amended: the rendering of a Component is exactly
"Component <name> of type <tag>" where <tag> is the Debug tag of the
variant (its bare identifier, e.g. "EarthingSwitch"), which agrees with the
Display string of `ComponentType` except for EarthingSwitch and
VoltageTransformer (whose Display strings contain a space); the rendering
of a Node is exactly "Node <name>". -/
theorem C8_thm (ty : ComponentType) (name nodeName : String) (ch : List CompRef) :
    Component.display (Component.new ty name) =
      "Component " ++ name ++ " of type " ++ ty.debugStr
    ∧ Node.display (Node.mk nodeName ch) = "Node " ++ nodeName
    ∧ (ty.debugStr = ty.displayStr ↔
        (ty ≠ .EarthingSwitch ∧ ty ≠ .VoltageTransformer)) := by
  refine ⟨rfl, rfl, ?_⟩
  cases ty <;> decide

/-- Claim C9: `open`/`close` leave the terminals and the measurement
untouched, `update` leaves the terminals and the position untouched,
`connect`/`disconnect` leave the position and the measurement untouched,
and the Node registry operations leave the node's own name (its only other
datum) untouched — each registry is updated only by its own operations
(the embedding keeps Component state and Node state in separate values, as
the Rust code keeps them behind separate `RefCell`s, so neither side's
operations can reach the other's state at all). -/
theorem C9_thm (c : Component) (n : NodeRef) (ti : Nat) (x : Float) (nd : Node)
    (cr : CompRef) :
    (c.opn.2.terminals = c.terminals ∧ c.opn.2.measurement = c.measurement) ∧
    (c.cls.2.terminals = c.terminals ∧ c.cls.2.measurement = c.measurement) ∧
    ((c.update x).2.terminals = c.terminals ∧ (c.update x).2.position = c.position) ∧
    ((c.connect n ti).2.position = c.position ∧
      (c.connect n ti).2.measurement = c.measurement) ∧
    ((c.disconnect n).2.position = c.position ∧
      (c.disconnect n).2.measurement = c.measurement) ∧
    (nd.add_component cr).2.name = nd.name ∧
    (nd.remove_component cr).2.name = nd.name :=
  ⟨⟨(opn_frame c).2.2.1, (opn_frame c).2.2.2⟩,
   ⟨(cls_frame c).2.2.1, (cls_frame c).2.2.2⟩,
   ⟨(update_frame c x).2.2.1, (update_frame c x).2.2.2⟩,
   ⟨(connect_frame c n ti).2.2.1, (connect_frame c n ti).2.2.2⟩,
   ⟨(disconnect_frame c n).2.2.1, (disconnect_frame c n).2.2.2⟩,
   node_add_name nd cr, node_remove_name nd cr⟩

/-- Claim C10: starting from any variant constructor, after any sequence of
operations no two distinct terminals of the component reference the same
node by identity. -/
theorem C10_thm (ty : ComponentType) (name : String) (ops : List Op) :
    nodesDistinct ((Component.new ty name).applyOps ops) :=
  nodesDistinct_applyOps (Component.new ty name) ops (nodesDistinct_new ty name)
